import Mathlib

/-!
Verification of the PDF image extractor in `src/main.py`.

The development shallowly embeds the extraction pipeline:

* page coordinates and header/footer ratios are modelled by `ℚ`;
* the external libraries (PyMuPDF, PIL, google-cloud-storage) are out of
  scope and appear only through their narrow interfaces: each embedded
  image reference (`ImgEntry`) and each page (`PageData`) carries the
  outcome of the corresponding library calls (returned rectangles,
  extraction/decoding/saving/upload success flags, decoded color mode),
  and the embedding reproduces exactly how `extract_images_from_pdf`
  reacts to those outcomes;
* mutable state (`image_count`, `skipped_header_footer`, `processed_xrefs`,
  the set of uploaded blobs) is threaded explicitly through `DocState` /
  `PageState`.

All definitions are executable, so theorems with hypotheses come with
concrete evaluated witness instances.
-/

namespace ExtractImg

/-- Placement rectangle of an embedded image on a page, in page
coordinates; only the vertical extent (`y0` top edge, `y1` bottom edge,
as reported by PyMuPDF) is relevant to the header/footer filter at
`src/main.py:88`. -/
structure Rect where
  y0 : ℚ
  y1 : ℚ
deriving DecidableEq, Repr

/-- Color modes a PIL decode (`Image.open`, `src/main.py:114`) can report
for an embedded raster image.  `one` is PIL's bilevel mode "1". -/
inductive Mode where
  | one
  | L
  | LA
  | P
  | RGB
  | RGBA
  | CMYK
  | YCbCr
deriving DecidableEq, Repr

/-- Modes whose pixel format carries an alpha channel. -/
def Mode.hasAlpha : Mode → Bool
  | .LA | .RGBA => true
  | _ => false

/-- Modes whose pixel format is palette-indexed. -/
def Mode.isPalette : Mode → Bool
  | .P => true
  | _ => false

/-- Abstract provenance of pixel data, tracking the compositing operations
the code applies.  `composite bg fg` is PIL `background.paste(img, mask)`
where the mask is the last channel of `fg` (its alpha plane,
`pil_image.split()[-1]` at `src/main.py:122`). -/
inductive PixelSource where
  | white_canvas
  | decoded (id : ℕ)
  | composite (bg fg : PixelSource)
  | rgb_converted (src : PixelSource)
deriving DecidableEq, Repr

/-- Model of a PIL image: color mode, dimensions, and abstract pixel
provenance. -/
structure PILImage where
  mode : Mode
  width : ℕ
  height : ℕ
  content : PixelSource
deriving DecidableEq, Repr

/-- Model of `Image.new("RGB", pil_image.size, (255, 255, 255))` at
`src/main.py:121`: an opaque white RGB canvas of the given dimensions. -/
def image_new_rgb_white (w h : ℕ) : PILImage :=
  ⟨Mode.RGB, w, h, PixelSource.white_canvas⟩

/-- Model of `background.paste(pil_image, mask=pil_image.split()[-1])` at
`src/main.py:122`: the foreground is blended onto the background using the
foreground's last channel (its alpha channel) as the blend mask; the
result keeps the background's mode and dimensions. -/
def paste_with_alpha_mask (background img : PILImage) : PILImage :=
  { background with content := PixelSource.composite background.content img.content }

/-- Model of `pil_image.convert('RGB')` at `src/main.py:125`. -/
def convert_rgb (img : PILImage) : PILImage :=
  { img with mode := Mode.RGB, content := PixelSource.rgb_converted img.content }

/-- Mode-normalization logic of `src/main.py:117-125`: modes `RGBA`, `P`,
`LA` are converted before JPEG encoding; alpha-carrying modes are pasted
onto a white canvas of identical dimensions, palette mode is converted
directly to RGB. -/
def normalize_pil (pil_image : PILImage) : PILImage :=
  if pil_image.mode = Mode.RGBA ∨ pil_image.mode = Mode.P ∨ pil_image.mode = Mode.LA then
    if pil_image.mode = Mode.RGBA ∨ pil_image.mode = Mode.LA then
      paste_with_alpha_mask (image_new_rgb_white pil_image.width pil_image.height) pil_image
    else
      convert_rgb pil_image
  else
    pil_image

/-- Result of `pil_image.save(image_buffer, "JPEG", quality=85)` at
`src/main.py:130`: the image re-encoded in the fixed target format at the
fixed quality. -/
structure EncodedImage where
  format : String
  quality : ℕ
  source : PILImage
deriving DecidableEq, Repr

/-- Encoding call of `src/main.py:130`. -/
def save_jpeg (img : PILImage) : EncodedImage :=
  ⟨"JPEG", 85, img⟩

/-- Decimal digit character, as produced by Python string formatting. -/
def digit_char (d : ℕ) : Char :=
  Char.ofNat (48 + d)

/-- Little-endian decimal digits of `n`, computed with explicit fuel so
that the definition is structurally recursive (the fuel `n` itself always
suffices). -/
def nat_to_rev_digits : ℕ → ℕ → List ℕ
  | 0, _ => []
  | _ + 1, 0 => []
  | fuel + 1, n + 1 => (n + 1) % 10 :: nat_to_rev_digits fuel ((n + 1) / 10)

/-- Decimal rendering of a natural number, the model of Python's
`f"{n}"` formatting of a nonnegative integer. -/
def nat_str (n : ℕ) : String :=
  if n = 0 then "0" else String.mk ((nat_to_rev_digits n n).reverse.map digit_char)

/-- Model of Python `s.strip('/')`: removes leading and trailing slash
characters (used on `image_dir` at `src/main.py:133` and on
`OUTPUT_IMAGE_DIR` at `src/main.py:203`). -/
def strip_slashes (s : String) : String :=
  String.mk (((s.data.dropWhile (fun c => c = '/')).reverse.dropWhile (fun c => c = '/')).reverse)

/-- Model of POSIX `os.path.basename`: the part of the path after the last
slash. -/
def basename_posix (s : String) : String :=
  String.mk ((s.data.reverse.takeWhile (fun c => c ≠ '/')).reverse)

/-- Model of `os.path.splitext(b)[0]` for a basename `b`: drops the part
starting at the last dot, unless every character before that dot is itself
a dot (Python treats such names as extensionless, e.g. `".pdf"`). -/
def splitext_root (s : String) : String :=
  let l := s.data
  let ext_len := (l.reverse.takeWhile (fun c => c ≠ '.')).length
  if ext_len = l.length then s
  else
    let root := l.take (l.length - ext_len - 1)
    if root.any (fun c => c ≠ '.') then String.mk root else s

/-- Base name used for output naming,
`os.path.splitext(os.path.basename(pdf_gcs_name))[0]` at
`src/main.py:46`. -/
def pdf_filename_base (pdf_gcs_name : String) : String :=
  splitext_root (basename_posix pdf_gcs_name)

/-- Final output object name built at `src/main.py:132`:
`f"{pdf_filename_base}_page_{page_num + 1}_img_{image_count + 1}.jpg"`,
with `page_num` the 0-based page index and `image_count` the number of
images already written for this document. -/
def final_image_name (base : String) (page_num image_count : ℕ) : String :=
  base ++ "_page_" ++ nat_str (page_num + 1) ++ "_img_" ++ nat_str (image_count + 1) ++ ".jpg"

/-- One embedded image reference of a page's `get_images(full=True)` list,
together with the outcomes of the external library calls the pipeline
performs on it.  `rects_ok = false` models `page.get_image_rects` raising
(`src/main.py:76-79`); `extract_ok = false` models
`pdf_document.extract_image` raising; `has_data = false` models a falsy
result or missing `"image"` key (`src/main.py:102`); `decode_ok = false`
models `Image.open` raising; `decoded` is the PIL image obtained when
decoding succeeds; `save_ok` / `upload_ok` model the JPEG re-encode and
the GCS upload raising. -/
structure ImgEntry where
  xref : ℕ
  rects_ok : Bool
  rects : List Rect
  extract_ok : Bool
  has_data : Bool
  ext : Option String
  decode_ok : Bool
  decoded : PILImage
  save_ok : Bool
  upload_ok : Bool
deriving DecidableEq, Repr

/-- Placement rectangles the loop body actually sees: `image_rects` is
initialized to `[]` at `src/main.py:75` and keeps that value when
`page.get_image_rects` raises. -/
def effective_rects (e : ImgEntry) : List Rect :=
  if e.rects_ok then e.rects else []

/-- Loop of `src/main.py:86-90`: starting from
`is_potentially_header_footer = True`, scan the rectangles and break with
`False` as soon as one rectangle has a part inside the main content band,
i.e. fails `rect.y1 <= header_limit or rect.y0 >= footer_limit`. -/
def rects_all_in_zones (header_limit footer_limit : ℚ) : List Rect → Bool
  | [] => true
  | r :: rest =>
    if r.y1 ≤ header_limit ∨ r.y0 ≥ footer_limit then
      rects_all_in_zones header_limit footer_limit rest
    else
      false

/-- Flag computed at `src/main.py:83-90`: `False` by default, and when the
rectangle list is nonempty, the result of the scanning loop. -/
def is_potentially_header_footer (header_limit footer_limit : ℚ) (image_rects : List Rect) : Bool :=
  if image_rects.isEmpty then false
  else rects_all_in_zones header_limit footer_limit image_rects

/-- Skip test of `src/main.py:92`:
`if is_potentially_header_footer and image_rects`. -/
def skip_condition (header_limit footer_limit : ℚ) (image_rects : List Rect) : Bool :=
  is_potentially_header_footer header_limit footer_limit image_rects && !image_rects.isEmpty

/-- Header/footer filter for one reference on a page of height
`page_height`, with the zone limits computed as at `src/main.py:57-58`:
`header_limit = page_height * header_ratio` and
`footer_limit = page_height * (1.0 - footer_ratio)`. -/
def header_footer_skip (page_height header_ratio footer_ratio : ℚ)
    (image_rects : List Rect) : Bool :=
  skip_condition (page_height * header_ratio) (page_height * (1 - footer_ratio)) image_rects

/-- Blob successfully uploaded to the output bucket
(`src/main.py:136-137`).  `page_num` and `image_count` record the loop
variables interpolated into the name at upload time (0-based; the name
itself uses their successors). -/
structure Output where
  page_num : ℕ
  image_count : ℕ
  blob_path : String
  content_type : String
  payload : EncodedImage
deriving DecidableEq, Repr

/-- Document-level mutable state of `extract_images_from_pdf`:
`image_count` (`src/main.py:43`), `skipped_header_footer`
(`src/main.py:44`) and the blobs uploaded so far. -/
structure DocState where
  image_count : ℕ
  skipped_header_footer : ℕ
  written : List Output
deriving DecidableEq, Repr

/-- Page-level state: the document state plus the per-page
`processed_xrefs` set (`src/main.py:67`), modelled as the list of
identifiers inserted so far. -/
structure PageState where
  doc : DocState
  processed_xrefs : List ℕ
deriving DecidableEq, Repr

/-- Context fixed for the whole per-page image loop: naming inputs, the
0-based page index, and the precomputed zone limits. -/
structure PageCtx where
  image_dir : String
  base : String
  page_num : ℕ
  header_limit : ℚ
  footer_limit : ℚ
deriving DecidableEq, Repr

/-- Extraction attempt of `src/main.py:100-144` (the inner `try` block)
for one kept reference: fetch the raw image, decode it, normalize the
color mode, re-encode as JPEG quality 85, and upload; any failure leaves
the document state unchanged (the exception is caught at
`src/main.py:141` and the loop continues).  `image_count` is incremented
only after a successful upload (`src/main.py:139`). -/
def attempt_extraction (ctx : PageCtx) (e : ImgEntry) (doc : DocState) : DocState :=
  if e.extract_ok = false then doc
  else if e.has_data = false then doc
  else if e.decode_ok = false then doc
  else
    let pil_image := normalize_pil e.decoded
    if e.save_ok = false then doc
    else
      let name := final_image_name ctx.base ctx.page_num doc.image_count
      let final_blob_path := strip_slashes ctx.image_dir ++ "/" ++ name
      if e.upload_ok = false then doc
      else
        { doc with
          image_count := doc.image_count + 1
          written := doc.written ++
            [⟨ctx.page_num, doc.image_count, final_blob_path, "image/jpeg", save_jpeg pil_image⟩] }

/-- Body of the per-image loop, `src/main.py:69-144`: skip invalid
`xref = 0` and per-page duplicates, apply the header/footer filter
(counting and recording a skip), otherwise record the reference as
processed and attempt the extraction. -/
def process_entry (ctx : PageCtx) (st : PageState) (e : ImgEntry) : PageState :=
  if e.xref = 0 ∨ e.xref ∈ st.processed_xrefs then st
  else
    let image_rects := effective_rects e
    if skip_condition ctx.header_limit ctx.footer_limit image_rects then
      { st with
        doc := { st.doc with skipped_header_footer := st.doc.skipped_header_footer + 1 }
        processed_xrefs := e.xref :: st.processed_xrefs }
    else
      { doc := attempt_extraction ctx e st.doc
        processed_xrefs := e.xref :: st.processed_xrefs }

/-- Left-to-right traversal of the page's image list. -/
def process_entries (ctx : PageCtx) (st : PageState) : List ImgEntry → PageState
  | [] => st
  | e :: rest => process_entries ctx (process_entry ctx st e) rest

/-- Outcomes of the external calls made for one page: `load_ok = false`
models `pdf_document[page_num]` / `page.rect` raising (such an exception
escapes the page loop and is caught only at `src/main.py:149-153`);
`images_ok = false` models `page.get_images(full=True)` raising, which
skips just this page (`src/main.py:63-65`). -/
structure PageData where
  load_ok : Bool
  height : ℚ
  images_ok : Bool
  image_list : List ImgEntry
deriving DecidableEq, Repr

/-- Per-page processing, `src/main.py:52-144`: pages of non-positive
height are skipped (`src/main.py:53-55`), a failing image-list retrieval
skips the page (`src/main.py:61-65`), otherwise the image list is
traversed with a fresh `processed_xrefs` set. -/
def process_page (image_dir base : String) (header_ratio footer_ratio : ℚ)
    (page_num : ℕ) (p : PageData) (doc : DocState) : DocState :=
  if p.height ≤ 0 then doc
  else
    let header_limit := p.height * header_ratio
    let footer_limit := p.height * (1 - footer_ratio)
    if p.images_ok = false then doc
    else
      (process_entries ⟨image_dir, base, page_num, header_limit, footer_limit⟩
        ⟨doc, []⟩ p.image_list).doc

/-- Final document state together with whether the page loop was aborted
by an exception that escaped to the handlers at `src/main.py:149-153`. -/
structure RunOutcome where
  doc : DocState
  aborted : Bool
deriving DecidableEq, Repr

/-- Page loop of `src/main.py:50`: pages are processed in order; a page
access that raises aborts the loop (the exception is caught by the outer
handlers, so the state accumulated so far survives). -/
def process_pages (image_dir base : String) (header_ratio footer_ratio : ℚ) :
    ℕ → DocState → List PageData → RunOutcome
  | _, doc, [] => ⟨doc, false⟩
  | page_num, doc, p :: rest =>
    if p.load_ok = false then ⟨doc, true⟩
    else
      process_pages image_dir base header_ratio footer_ratio (page_num + 1)
        (process_page image_dir base header_ratio footer_ratio page_num p doc) rest

/-- Outcome of `fitz.open` at `src/main.py:42`: failure (a corrupt PDF)
or a parsed document, i.e. its list of pages with the behavior of the
library calls made on each. -/
inductive OpenResult where
  | fail
  | ok (pages : List PageData)
deriving DecidableEq, Repr

/-- Result of one `extract_images_from_pdf` call: accumulated document
state, whether the page loop was aborted by an escaping exception, and
whether `pdf_document.close()` was called in the `finally` block at
`src/main.py:154-161` (it runs exactly when the handle was successfully
opened). -/
structure DocResult where
  doc : DocState
  aborted : Bool
  closed : Bool
deriving DecidableEq, Repr

/-- Ratio validation at `src/main.py:36-37`: a ratio outside `[0, 1)` is
replaced by the default `0.10`. -/
def validate_ratio_value (r : ℚ) : ℚ :=
  if 0 ≤ r ∧ r < 1 then r else 1/10

/-- Model of `extract_images_from_pdf` (`src/main.py:20-161`): validate
the ratios, open the document (aborting with no output on failure, which
is caught at `src/main.py:149-153`), process all pages, and always close
a successfully opened handle in the `finally` block. -/
def extract_images_from_pdf (open_result : OpenResult) (pdf_gcs_name image_dir : String)
    (header_ratio footer_ratio : ℚ) : DocResult :=
  let hr := validate_ratio_value header_ratio
  let fr := validate_ratio_value footer_ratio
  match open_result with
  | OpenResult.fail => ⟨⟨0, 0, []⟩, false, false⟩
  | OpenResult.ok pages =>
    let base := pdf_filename_base pdf_gcs_name
    let out := process_pages image_dir base hr fr 0 ⟨0, 0, []⟩ pages
    ⟨out.doc, out.aborted, true⟩

/-- Configured output bucket, `src/main.py:11`. -/
def OUTPUT_BUCKET_NAME : String := "sbi-image-sample"

/-- Configured output directory, `src/main.py:13`. -/
def OUTPUT_IMAGE_DIR : String := "extracted-pdf-images"

/-- Configured header ratio, `src/main.py:15`. -/
def HEADER_RATIO_CFG : ℚ := 15/100

/-- Configured footer ratio, `src/main.py:16`. -/
def FOOTER_RATIO_CFG : ℚ := 15/100

/-- ASCII lowercasing, the model of Python `str.lower()` on the ASCII
object names considered here. -/
def str_lower (s : String) : String :=
  String.mk (s.data.map Char.toLower)

/-- Model of Python `s.endswith(t)`. -/
def ends_with (s t : String) : Bool :=
  List.isSuffixOf t.data s.data

/-- Model of Python `s.startswith(t)`. -/
def starts_with (s t : String) : Bool :=
  List.isPrefixOf t.data s.data

/-- Decision taken by the validation gate of the trigger function. -/
inductive TriggerAction where
  | ignored_non_pdf
  | ignored_own_output
  | proceed
deriving DecidableEq, Repr

/-- Validation gate of `extract_images_from_pdf_gcs_trigger`
(`src/main.py:193-205`): ignore events whose object name is empty or does
not end in `.pdf` case-insensitively; ignore events whose source bucket is
the configured output bucket when the object name starts with the
output-directory prefix; otherwise proceed to download and process. -/
def validate_event (input_bucket_name input_file_name : String) : TriggerAction :=
  if input_file_name = "" ∨ ends_with (str_lower input_file_name) ".pdf" = false then
    TriggerAction.ignored_non_pdf
  else if input_bucket_name = OUTPUT_BUCKET_NAME ∧
      starts_with input_file_name (strip_slashes OUTPUT_IMAGE_DIR ++ "/") = true then
    TriggerAction.ignored_own_output
  else
    TriggerAction.proceed

/-- Scanning loop characterization: the flag survives the loop exactly
when every rectangle lies entirely in the header zone or entirely in the
footer zone. -/
theorem rects_all_in_zones_iff (hl fl : ℚ) (l : List Rect) :
    rects_all_in_zones hl fl l = true ↔ ∀ r ∈ l, r.y1 ≤ hl ∨ r.y0 ≥ fl := by
  induction l with
  | nil => simp [rects_all_in_zones]
  | cons r rest ih =>
    by_cases h : r.y1 ≤ hl ∨ r.y0 ≥ fl
    · simp [rects_all_in_zones, h, ih]
    · simp [rects_all_in_zones, h]

/-- Filter characterization on a nonempty rectangle list. -/
theorem header_footer_skip_iff (H hr fr : ℚ) (rects : List Rect) (hne : rects ≠ []) :
    header_footer_skip H hr fr rects = true ↔
      ∀ r ∈ rects, r.y1 ≤ H * hr ∨ r.y0 ≥ H * (1 - fr) := by
  have hne' : rects.isEmpty = false := by
    cases rects with
    | nil => exact absurd rfl hne
    | cons a l => rfl
  simp [header_footer_skip, skip_condition, is_potentially_header_footer, hne',
    rects_all_in_zones_iff]

/-- Empty rectangle list: the skip test of `src/main.py:92` is never
taken. -/
theorem skip_condition_nil (hl fl : ℚ) : skip_condition hl fl [] = false := by
  simp [skip_condition, is_potentially_header_footer]

/-- C1: for every page with positive height `H` and validated ratios
`hr`, `fr`, a reference with at least one retrievable placement rectangle
is classified header/footer-only exactly when every one of its rectangles
satisfies `y1 ≤ H*hr` or `y0 ≥ H*(1-fr)`; if any single rectangle
violates both bounds the reference is kept.  The validation of
`src/main.py:36-37` leaves such ratios unchanged. -/
theorem C1_header_footer_filter (H hr fr : ℚ) (rects : List Rect)
    (hH : 0 < H) (hhr0 : 0 ≤ hr) (hhr1 : hr < 1) (hfr0 : 0 ≤ fr) (hfr1 : fr < 1)
    (hne : rects ≠ []) :
    validate_ratio_value hr = hr ∧ validate_ratio_value fr = fr ∧
    (header_footer_skip H hr fr rects = true ↔
      ∀ r ∈ rects, r.y1 ≤ H * hr ∨ r.y0 ≥ H * (1 - fr)) ∧
    ((∃ r ∈ rects, H * hr < r.y1 ∧ r.y0 < H * (1 - fr)) →
      header_footer_skip H hr fr rects = false) := by
  refine ⟨by simp [validate_ratio_value, hhr0, hhr1], by simp [validate_ratio_value, hfr0, hfr1],
    header_footer_skip_iff H hr fr rects hne, ?_⟩
  rintro ⟨r, hmem, h1, h2⟩
  rw [Bool.eq_false_iff]
  intro hskip
  rcases (header_footer_skip_iff H hr fr rects hne).mp hskip r hmem with h | h
  · exact absurd h (not_le.mpr h1)
  · exact absurd h (not_le.mpr h2)

unseal Rat.mul Rat.add Rat.sub Rat.inv in
/-- Witness for C1 on the spec's scenario: page height 1000, ratios 0.1,
a single placement `y0 = 0, y1 = 50` is skipped, and a placement
`y0 = 400, y1 = 600` forces a keep. -/
theorem C1_header_footer_filter_witness :
    header_footer_skip 1000 (1/10) (1/10) [⟨0, 50⟩] = true ∧
    header_footer_skip 1000 (1/10) (1/10) [⟨400, 600⟩] = false :=
  ⟨(C1_header_footer_filter 1000 (1/10) (1/10) [⟨0, 50⟩] (by decide) (by decide) (by decide)
      (by decide) (by decide) (by decide)).2.2.1.mpr (by decide),
   (C1_header_footer_filter 1000 (1/10) (1/10) [⟨400, 600⟩] (by decide) (by decide) (by decide)
      (by decide) (by decide) (by decide)).2.2.2 ⟨⟨400, 600⟩, by decide, by decide, by decide⟩⟩

/-- Extraction attempts never touch the header/footer skip counter. -/
theorem attempt_extraction_skipped (ctx : PageCtx) (e : ImgEntry) (doc : DocState) :
    (attempt_extraction ctx e doc).skipped_header_footer = doc.skipped_header_footer := by
  rcases e with ⟨x, ro, rs, eo, hd, ex, dc, di, so, uo⟩
  cases eo <;> cases hd <;> cases dc <;> cases so <;> cases uo <;> rfl

/-- C6: a reference with no retrievable placement rectangles (empty list
or failed retrieval) is never classified header/footer-only; it is kept
and proceeds to the extraction attempt, leaving the skip counter
unchanged. -/
theorem C6_no_rects_means_kept (ctx : PageCtx) (st : PageState) (e : ImgEntry)
    (hno : e.rects_ok = false ∨ e.rects = [])
    (hfresh : ¬ (e.xref = 0 ∨ e.xref ∈ st.processed_xrefs)) :
    skip_condition ctx.header_limit ctx.footer_limit (effective_rects e) = false ∧
    process_entry ctx st e =
      ⟨attempt_extraction ctx e st.doc, e.xref :: st.processed_xrefs⟩ ∧
    (process_entry ctx st e).doc.skipped_header_footer = st.doc.skipped_header_footer := by
  have hrects : effective_rects e = [] := by
    rcases hno with h | h
    · simp [effective_rects, h]
    · simp [effective_rects, h]
  have hskip : skip_condition ctx.header_limit ctx.footer_limit (effective_rects e) = false := by
    rw [hrects]; exact skip_condition_nil _ _
  have hentry : process_entry ctx st e =
      ⟨attempt_extraction ctx e st.doc, e.xref :: st.processed_xrefs⟩ := by
    simp [process_entry, hfresh, hskip]
  refine ⟨hskip, hentry, ?_⟩
  rw [hentry]
  exact attempt_extraction_skipped ctx e st.doc

/-- Witness for C6: a reference whose rectangle retrieval raised is kept
and extracted. -/
theorem C6_no_rects_means_kept_witness :
    skip_condition (10 : ℚ) 90 (effective_rects
      ⟨7, false, [⟨0, 5⟩], true, true, some "png", true, ⟨Mode.RGB, 1, 1, PixelSource.decoded 0⟩,
        true, true⟩) = false ∧
    process_entry ⟨"d", "b", 0, 10, 90⟩ ⟨⟨0, 0, []⟩, []⟩
      ⟨7, false, [⟨0, 5⟩], true, true, some "png", true, ⟨Mode.RGB, 1, 1, PixelSource.decoded 0⟩,
        true, true⟩ =
      ⟨attempt_extraction ⟨"d", "b", 0, 10, 90⟩
        ⟨7, false, [⟨0, 5⟩], true, true, some "png", true, ⟨Mode.RGB, 1, 1, PixelSource.decoded 0⟩,
          true, true⟩ ⟨0, 0, []⟩, [7]⟩ ∧
    (process_entry ⟨"d", "b", 0, 10, 90⟩ ⟨⟨0, 0, []⟩, []⟩
      ⟨7, false, [⟨0, 5⟩], true, true, some "png", true, ⟨Mode.RGB, 1, 1, PixelSource.decoded 0⟩,
        true, true⟩).doc.skipped_header_footer = 0 :=
  C6_no_rects_means_kept ⟨"d", "b", 0, 10, 90⟩ ⟨⟨0, 0, []⟩, []⟩
    ⟨7, false, [⟨0, 5⟩], true, true, some "png", true, ⟨Mode.RGB, 1, 1, PixelSource.decoded 0⟩,
      true, true⟩ (Or.inl rfl) (by decide)

/-- C9: on every exit path of `extract_images_from_pdf`, a successfully
opened document handle is closed by the `finally` block before the call
returns (whether or not an exception aborted the page loop), while a
failed open leaves nothing to close. -/
theorem C9_handle_closed (pdf_gcs_name image_dir : String) (hr fr : ℚ)
    (pages : List PageData) :
    (extract_images_from_pdf (OpenResult.ok pages) pdf_gcs_name image_dir hr fr).closed = true ∧
    (extract_images_from_pdf OpenResult.fail pdf_gcs_name image_dir hr fr).closed = false :=
  ⟨rfl, rfl⟩

/-- C10: when the validated ratios satisfy `hr + fr ≥ 1` on a page of
positive height, the header limit is at or above the footer limit, a
reference with retrievable rectangles is kept exactly when some rectangle
spans the overlap of the two zones (`y1 > H*hr` and `y0 < H*(1-fr)`), and
both keeping and skipping actually occur in this regime. -/
theorem C10_overlapping_zones (H hr fr : ℚ)
    (hH : 0 < H) (hhr0 : 0 ≤ hr) (hhr1 : hr < 1) (hfr0 : 0 ≤ fr) (hfr1 : fr < 1)
    (hsum : 1 ≤ hr + fr) :
    H * (1 - fr) ≤ H * hr ∧
    (∀ rects : List Rect, rects ≠ [] →
      (header_footer_skip H hr fr rects = false ↔
        ∃ r ∈ rects, H * hr < r.y1 ∧ r.y0 < H * (1 - fr))) ∧
    (∃ rects : List Rect, rects ≠ [] ∧ header_footer_skip H hr fr rects = false) ∧
    (∃ rects : List Rect, rects ≠ [] ∧ header_footer_skip H hr fr rects = true) := by
  have hkeep : ∀ rects : List Rect, rects ≠ [] →
      (header_footer_skip H hr fr rects = false ↔
        ∃ r ∈ rects, H * hr < r.y1 ∧ r.y0 < H * (1 - fr)) := by
    intro rects hne
    have hiff := header_footer_skip_iff H hr fr rects hne
    constructor
    · intro hf
      have hnall : ¬ ∀ r ∈ rects, r.y1 ≤ H * hr ∨ r.y0 ≥ H * (1 - fr) := by
        intro hall
        rw [hiff.mpr hall] at hf
        simp at hf
      push_neg at hnall
      exact hnall
    · rintro ⟨r, hmem, h1, h2⟩
      rw [Bool.eq_false_iff]
      intro hskip
      rcases hiff.mp hskip r hmem with h | h
      · exact absurd h (not_le.mpr h1)
      · exact absurd h (not_le.mpr h2)
  refine ⟨?_, hkeep, ?_, ?_⟩
  · have h1 : 1 - fr ≤ hr := by linarith
    exact mul_le_mul_of_nonneg_left h1 hH.le
  · refine ⟨[⟨H * (1 - fr) - 1, H * hr + 1⟩], by simp, ?_⟩
    refine (hkeep _ (by simp)).mpr ⟨⟨H * (1 - fr) - 1, H * hr + 1⟩, by simp, ?_, ?_⟩
    · show H * hr < H * hr + 1
      linarith
    · show H * (1 - fr) - 1 < H * (1 - fr)
      linarith
  · refine ⟨[⟨0, H * hr⟩], by simp, ?_⟩
    refine (header_footer_skip_iff H hr fr _ (by simp)).mpr ?_
    intro r hmem
    rw [List.mem_singleton] at hmem
    subst hmem
    exact Or.inl le_rfl

unseal Rat.mul Rat.add Rat.sub Rat.inv in
/-- Witness for C10 with `hr = fr = 0.6` on a page of height 100 (limits
60 and 40): a rectangle spanning the overlap band is kept, one inside the
header zone is skipped. -/
theorem C10_overlapping_zones_witness :
    (100 : ℚ) * (1 - 6/10) ≤ 100 * (6/10) ∧
    header_footer_skip 100 (6/10) (6/10) [⟨30, 70⟩] = false ∧
    header_footer_skip 100 (6/10) (6/10) [⟨0, 55⟩] = true :=
  ⟨(C10_overlapping_zones 100 (6/10) (6/10) (by decide) (by decide) (by decide) (by decide)
      (by decide) (by decide)).1,
   ((C10_overlapping_zones 100 (6/10) (6/10) (by decide) (by decide) (by decide) (by decide)
      (by decide) (by decide)).2.1 [⟨30, 70⟩] (by decide)).mpr
     ⟨⟨30, 70⟩, by decide, by decide, by decide⟩,
   Bool.ne_false_iff.mp (fun hf =>
     (by decide : ¬ ∃ r ∈ [(⟨0, 55⟩ : Rect)], (100 : ℚ) * (6/10) < r.y1 ∧
        r.y0 < 100 * (1 - 6/10))
       (((C10_overlapping_zones 100 (6/10) (6/10) (by decide) (by decide) (by decide) (by decide)
          (by decide) (by decide)).2.1 [⟨0, 55⟩] (by decide)).mp hf))⟩

/-- Number of entries of the list at which the loop body actually runs
past the `xref == 0 or xref in processed_xrefs` guard of `src/main.py:71`
for the identifier `x`, threading the state exactly as the loop does. -/
def acted_count (ctx : PageCtx) (x : ℕ) : PageState → List ImgEntry → ℕ
  | _, [] => 0
  | st, e :: rest =>
    (if e.xref = x ∧ ¬ (e.xref = 0 ∨ e.xref ∈ st.processed_xrefs) then 1 else 0)
      + acted_count ctx x (process_entry ctx st e) rest

/-- Processing an entry never removes identifiers from
`processed_xrefs`. -/
theorem mem_processed_xrefs_of_process_entry (ctx : PageCtx) (st : PageState) (e : ImgEntry)
    (x : ℕ) (h : x ∈ st.processed_xrefs) :
    x ∈ (process_entry ctx st e).processed_xrefs := by
  simp only [process_entry]
  split
  · exact h
  · split
    · exact List.mem_cons_of_mem _ h
    · exact List.mem_cons_of_mem _ h

/-- Processing an entry either leaves `processed_xrefs` unchanged or
inserts exactly the entry's identifier. -/
theorem processed_xrefs_of_process_entry (ctx : PageCtx) (st : PageState) (e : ImgEntry) :
    (process_entry ctx st e).processed_xrefs = st.processed_xrefs ∨
    (process_entry ctx st e).processed_xrefs = e.xref :: st.processed_xrefs := by
  simp only [process_entry]
  split
  · exact Or.inl rfl
  · split
    · exact Or.inr rfl
    · exact Or.inr rfl

/-- An entry that passes the guard records its identifier. -/
theorem xref_recorded_of_acts (ctx : PageCtx) (st : PageState) (e : ImgEntry)
    (hx : ¬ (e.xref = 0 ∨ e.xref ∈ st.processed_xrefs)) :
    e.xref ∈ (process_entry ctx st e).processed_xrefs := by
  simp only [process_entry, if_neg hx]
  split
  · exact List.mem_cons_self _ _
  · exact List.mem_cons_self _ _

/-- An identifier already recorded on this page never acts again. -/
theorem acted_count_eq_zero_of_mem (ctx : PageCtx) (x : ℕ) :
    ∀ (l : List ImgEntry) (st : PageState), x ∈ st.processed_xrefs →
      acted_count ctx x st l = 0 := by
  intro l
  induction l with
  | nil => intro st _; rfl
  | cons e rest ih =>
    intro st h
    have hng : ¬ (e.xref = x ∧ ¬ (e.xref = 0 ∨ e.xref ∈ st.processed_xrefs)) := by
      rintro ⟨hx, hact⟩
      exact hact (Or.inr (hx ▸ h))
    simp only [acted_count, if_neg hng, Nat.zero_add]
    exact ih _ (mem_processed_xrefs_of_process_entry ctx st e x h)

/-- A nonzero identifier not yet recorded acts at most once over the rest
of the page's image list. -/
theorem acted_count_le_one (ctx : PageCtx) (x : ℕ) (hx : x ≠ 0) :
    ∀ (l : List ImgEntry) (st : PageState), x ∉ st.processed_xrefs →
      acted_count ctx x st l ≤ 1 := by
  intro l
  induction l with
  | nil => intro st _; exact Nat.zero_le 1
  | cons e rest ih =>
    intro st h
    by_cases hc : e.xref = x ∧ ¬ (e.xref = 0 ∨ e.xref ∈ st.processed_xrefs)
    · have hzero : acted_count ctx x (process_entry ctx st e) rest = 0 :=
        acted_count_eq_zero_of_mem ctx x rest _
          (hc.1 ▸ xref_recorded_of_acts ctx st e hc.2)
      simp only [acted_count, if_pos hc, hzero]
      omega
    · have hafter : x ∉ (process_entry ctx st e).processed_xrefs := by
        rcases processed_xrefs_of_process_entry ctx st e with heq | heq
        · rw [heq]; exact h
        · rw [heq]
          intro hmem
          rcases List.mem_cons.mp hmem with hxe | hxs
        --   x = e.xref
          · push_neg at hc
            rcases hc (hxe.symm) with h0 | hin
            · exact hx (hxe ▸ h0)
            · exact h (hxe ▸ hin)
          · exact h hxs
      simp only [acted_count, if_neg hc, Nat.zero_add]
      exact ih _ hafter

/-- C2: a reference identifier of value 0 never acts (its entries leave
the state untouched regardless of geometry), and a distinct nonzero
identifier is processed at most once per page, even when it occurs
several times in the page's image list. -/
theorem C2_xref_zero_and_dedup (ctx : PageCtx) (x : ℕ) (l : List ImgEntry) (st : PageState)
    (hx : x ≠ 0) (hmem : x ∉ st.processed_xrefs) :
    acted_count ctx 0 st l = 0 ∧
    (∀ e : ImgEntry, e.xref = 0 → process_entry ctx st e = st) ∧
    acted_count ctx x st l ≤ 1 := by
  refine ⟨?_, ?_, acted_count_le_one ctx x hx l st hmem⟩
  · clear hmem
    induction l generalizing st with
    | nil => rfl
    | cons e rest ih =>
      have hng : ¬ (e.xref = 0 ∧ ¬ (e.xref = 0 ∨ e.xref ∈ st.processed_xrefs)) := by
        rintro ⟨h0, hact⟩
        exact hact (Or.inl h0)
      simp only [acted_count, if_neg hng, Nat.zero_add]
      exact ih _
  · intro e he
    simp [process_entry, he]

/-- Witness for C2: a page whose image list repeats the identifier 5 and
contains an identifier-0 entry; identifier 5 acts at most once. -/
theorem C2_xref_zero_and_dedup_witness :
    acted_count ⟨"d", "b", 0, 10, 90⟩ 0 ⟨⟨0, 0, []⟩, []⟩
      [⟨5, true, [⟨40, 60⟩], true, true, some "png", true,
          ⟨Mode.RGB, 1, 1, PixelSource.decoded 0⟩, true, true⟩,
        ⟨5, true, [⟨40, 60⟩], true, true, some "png", true,
          ⟨Mode.RGB, 1, 1, PixelSource.decoded 0⟩, true, true⟩] = 0 ∧
    (∀ e : ImgEntry, e.xref = 0 →
      process_entry ⟨"d", "b", 0, 10, 90⟩ ⟨⟨0, 0, []⟩, []⟩ e = ⟨⟨0, 0, []⟩, []⟩) ∧
    acted_count ⟨"d", "b", 0, 10, 90⟩ 5 ⟨⟨0, 0, []⟩, []⟩
      [⟨5, true, [⟨40, 60⟩], true, true, some "png", true,
          ⟨Mode.RGB, 1, 1, PixelSource.decoded 0⟩, true, true⟩,
        ⟨5, true, [⟨40, 60⟩], true, true, some "png", true,
          ⟨Mode.RGB, 1, 1, PixelSource.decoded 0⟩, true, true⟩] ≤ 1 :=
  C2_xref_zero_and_dedup ⟨"d", "b", 0, 10, 90⟩ 5
    [⟨5, true, [⟨40, 60⟩], true, true, some "png", true,
        ⟨Mode.RGB, 1, 1, PixelSource.decoded 0⟩, true, true⟩,
      ⟨5, true, [⟨40, 60⟩], true, true, some "png", true,
        ⟨Mode.RGB, 1, 1, PixelSource.decoded 0⟩, true, true⟩]
    ⟨⟨0, 0, []⟩, []⟩ (by decide) (by decide)

/-- C5: an alpha-carrying decoded mode is composited onto an opaque white
RGB canvas of identical dimensions using its alpha channel as blend mask,
palette mode is converted directly to RGB, and the normalized image never
carries an alpha channel or a palette. -/
theorem C5_mode_normalization (img : PILImage) :
    (img.mode.hasAlpha = true →
      normalize_pil img =
        paste_with_alpha_mask (image_new_rgb_white img.width img.height) img) ∧
    (img.mode = Mode.P → normalize_pil img = convert_rgb img) ∧
    (normalize_pil img).mode.hasAlpha = false ∧
    (normalize_pil img).mode.isPalette = false := by
  rcases img with ⟨m, w, h, c⟩
  cases m <;>
    simp [normalize_pil, paste_with_alpha_mask, image_new_rgb_white, convert_rgb,
      Mode.hasAlpha, Mode.isPalette]

/-- Witness for C5: an RGBA image is composited onto white, a palette
image is converted to RGB. -/
theorem C5_mode_normalization_witness :
    normalize_pil ⟨Mode.RGBA, 2, 3, PixelSource.decoded 0⟩ =
      paste_with_alpha_mask (image_new_rgb_white 2 3) ⟨Mode.RGBA, 2, 3, PixelSource.decoded 0⟩ ∧
    normalize_pil ⟨Mode.P, 4, 4, PixelSource.decoded 1⟩ =
      convert_rgb ⟨Mode.P, 4, 4, PixelSource.decoded 1⟩ :=
  ⟨(C5_mode_normalization ⟨Mode.RGBA, 2, 3, PixelSource.decoded 0⟩).1 rfl,
   (C5_mode_normalization ⟨Mode.P, 4, 4, PixelSource.decoded 1⟩).2.1 rfl⟩

/-- C7: events whose object name does not end in `.pdf` case-insensitively
are ignored; events from the output bucket under the output-directory
prefix are ignored; a mixed-case `report.PDF` in any other bucket is
accepted for processing. -/
theorem C7_trigger_validation (input_bucket_name input_file_name : String) :
    (ends_with (str_lower input_file_name) ".pdf" = false →
      validate_event input_bucket_name input_file_name = TriggerAction.ignored_non_pdf) ∧
    (input_bucket_name = OUTPUT_BUCKET_NAME →
      starts_with input_file_name (strip_slashes OUTPUT_IMAGE_DIR ++ "/") = true →
      ends_with (str_lower input_file_name) ".pdf" = true →
      validate_event input_bucket_name input_file_name = TriggerAction.ignored_own_output) ∧
    (input_bucket_name ≠ OUTPUT_BUCKET_NAME →
      validate_event input_bucket_name "report.PDF" = TriggerAction.proceed) := by
  refine ⟨?_, ?_, ?_⟩
  · intro h
    unfold validate_event
    rw [if_pos (Or.inr h)]
  · intro h1 h2 h3
    unfold validate_event
    rw [if_neg ?_, if_pos ⟨h1, h2⟩]
    rintro (hemp | hfalse)
    · subst hemp
      exact absurd h3 (by decide)
    · rw [h3] at hfalse
      exact absurd hfalse (by decide)
  · intro hb
    unfold validate_event
    rw [if_neg (by decide), if_neg ?_]
    rintro ⟨h1, _⟩
    exact hb h1

/-- Witness for C7: a text file is ignored, an upload landing in the
output directory of the output bucket is ignored, and `report.PDF` in
another bucket proceeds. -/
theorem C7_trigger_validation_witness :
    validate_event "some-input" "notes.txt" = TriggerAction.ignored_non_pdf ∧
    validate_event "sbi-image-sample" "extracted-pdf-images/foo.pdf" =
      TriggerAction.ignored_own_output ∧
    validate_event "some-input" "report.PDF" = TriggerAction.proceed :=
  ⟨(C7_trigger_validation "some-input" "notes.txt").1 (by decide),
   (C7_trigger_validation "sbi-image-sample" "extracted-pdf-images/foo.pdf").2.1
     (by decide) (by decide) (by decide),
   (C7_trigger_validation "some-input" "report.PDF").2.2 (by decide)⟩

/-- Failure modes of the inner `try` block that make the per-reference
pipeline of `src/main.py:100-144` raise: extraction raising, or (with
retrievable data) decoding, JPEG re-encoding, or the upload raising. -/
def entry_fails (e : ImgEntry) : Bool :=
  !e.extract_ok || (e.has_data && (!e.decode_ok || !e.save_ok || !e.upload_ok))

/-- A failing extraction attempt leaves the document state unchanged. -/
theorem attempt_extraction_of_fails (ctx : PageCtx) (e : ImgEntry) (doc : DocState)
    (h : entry_fails e = true) : attempt_extraction ctx e doc = doc := by
  rcases e with ⟨x, ro, rs, eo, hd, ex, dc, di, so, uo⟩
  cases eo <;> cases hd <;> cases dc <;> cases so <;> cases uo <;>
    first
      | rfl
      | (exact absurd h (by simp [entry_fails]))

/-- C8: failures are contained at the narrowest scope.  A page whose
image-list retrieval raises is skipped alone and processing continues
with the subsequent pages from the same state; a reference whose
extraction, decode, re-encode or upload fails is skipped alone (only its
identifier is recorded) and processing continues with the next reference
on the same page.  Neither failure aborts the run. -/
theorem C8_error_containment (image_dir base : String) (hr fr : ℚ) (page_num : ℕ)
    (p : PageData) (rest : List PageData) (doc : DocState)
    (ctx : PageCtx) (st : PageState) (e : ImgEntry) (erest : List ImgEntry) :
    (p.load_ok = true → p.images_ok = false → 0 < p.height →
      process_pages image_dir base hr fr page_num doc (p :: rest) =
        process_pages image_dir base hr fr (page_num + 1) doc rest) ∧
    (¬ (e.xref = 0 ∨ e.xref ∈ st.processed_xrefs) →
      skip_condition ctx.header_limit ctx.footer_limit (effective_rects e) = false →
      entry_fails e = true →
      process_entries ctx st (e :: erest) =
        process_entries ctx ⟨st.doc, e.xref :: st.processed_xrefs⟩ erest) := by
  constructor
  · intro hload himg hh
    have hpage : process_page image_dir base hr fr page_num p doc = doc := by
      simp [process_page, himg, not_le.mpr hh]
    simp only [process_pages, hload]
    rw [hpage]
    simp
  · intro hfresh hskip hfail
    have hentry : process_entry ctx st e = ⟨st.doc, e.xref :: st.processed_xrefs⟩ := by
      simp only [process_entry, if_neg hfresh, hskip]
      rw [attempt_extraction_of_fails ctx e st.doc hfail]
      simp
    simp only [process_entries, hentry]

/-- Witness for C8: a page with a failing image list is skipped while the
run continues, and a reference whose upload fails is skipped while the
page continues. -/
theorem C8_error_containment_witness :
    process_pages "d" "b" (1/10) (1/10) 0 ⟨0, 0, []⟩
        [⟨true, 100, false, []⟩] =
      process_pages "d" "b" (1/10) (1/10) 1 ⟨0, 0, []⟩ [] ∧
    process_entries ⟨"d", "b", 0, 10, 90⟩ ⟨⟨0, 0, []⟩, []⟩
        [⟨9, true, [⟨40, 60⟩], true, true, some "png", true,
          ⟨Mode.RGB, 1, 1, PixelSource.decoded 0⟩, true, false⟩] =
      process_entries ⟨"d", "b", 0, 10, 90⟩ ⟨⟨0, 0, []⟩, [9]⟩ [] :=
  ⟨(C8_error_containment "d" "b" (1/10) (1/10) 0 ⟨true, 100, false, []⟩ [] ⟨0, 0, []⟩
      ⟨"d", "b", 0, 10, 90⟩ ⟨⟨0, 0, []⟩, []⟩
      ⟨9, true, [⟨40, 60⟩], true, true, some "png", true,
        ⟨Mode.RGB, 1, 1, PixelSource.decoded 0⟩, true, false⟩ []).1
      rfl rfl (by decide),
   (C8_error_containment "d" "b" (1/10) (1/10) 0 ⟨true, 100, false, []⟩ [] ⟨0, 0, []⟩
      ⟨"d", "b", 0, 10, 90⟩ ⟨⟨0, 0, []⟩, []⟩
      ⟨9, true, [⟨40, 60⟩], true, true, some "png", true,
        ⟨Mode.RGB, 1, 1, PixelSource.decoded 0⟩, true, false⟩ []).2
      (by decide) (by decide) (by decide)⟩

/-- Value of a little-endian decimal digit list. -/
def rev_digits_val : List ℕ → ℕ
  | [] => 0
  | d :: rest => d + 10 * rev_digits_val rest

/-- The fuel-indexed digit expansion is correct whenever the fuel
suffices. -/
theorem rev_digits_val_nat_to_rev_digits :
    ∀ fuel n : ℕ, n ≤ fuel → rev_digits_val (nat_to_rev_digits fuel n) = n := by
  intro fuel
  induction fuel with
  | zero =>
    intro n h
    have hn : n = 0 := Nat.le_zero.mp h
    subst hn
    rfl
  | succ f ih =>
    intro n h
    cases n with
    | zero => rfl
    | succ m =>
      have hdiv : (m + 1) / 10 ≤ f := by
        have h1 : (m + 1) / 10 < m + 1 := Nat.div_lt_self (Nat.succ_pos m) (by omega)
        omega
      simp only [nat_to_rev_digits, rev_digits_val]
      rw [ih _ hdiv]
      omega

/-- All produced digits are below the base. -/
theorem nat_to_rev_digits_lt :
    ∀ fuel n : ℕ, ∀ d ∈ nat_to_rev_digits fuel n, d < 10 := by
  intro fuel
  induction fuel with
  | zero =>
    intro n d hd
    simp [nat_to_rev_digits] at hd
  | succ f ih =>
    intro n d hd
    cases n with
    | zero => simp [nat_to_rev_digits] at hd
    | succ m =>
      simp only [nat_to_rev_digits, List.mem_cons] at hd
      rcases hd with h | h
      · subst h
        exact Nat.mod_lt _ (by omega)
      · exact ih _ d h

/-- Digit list including the special case of zero, matching `nat_str`. -/
def nat_rev_digits (n : ℕ) : List ℕ :=
  if n = 0 then [0] else nat_to_rev_digits n n

/-- Characters of `nat_str` are the digit characters of
`nat_rev_digits`. -/
theorem nat_str_data (n : ℕ) :
    (nat_str n).data = (nat_rev_digits n).reverse.map digit_char := by
  unfold nat_str nat_rev_digits
  by_cases h : n = 0
  · rw [if_pos h, if_pos h]
    rfl
  · rw [if_neg h, if_neg h]

/-- Digit-list value agrees with the rendered number. -/
theorem nat_rev_digits_val (n : ℕ) : rev_digits_val (nat_rev_digits n) = n := by
  unfold nat_rev_digits
  by_cases h : n = 0
  · rw [if_pos h, h]
    rfl
  · rw [if_neg h]
    exact rev_digits_val_nat_to_rev_digits n n le_rfl

/-- Digits of a rendered number are below the base. -/
theorem nat_rev_digits_lt (n : ℕ) : ∀ d ∈ nat_rev_digits n, d < 10 := by
  unfold nat_rev_digits
  by_cases h : n = 0
  · rw [if_pos h]
    intro d hd
    simp at hd
    omega
  · rw [if_neg h]
    exact nat_to_rev_digits_lt n n

/-- The digit-character map is injective on digits. -/
theorem digit_char_inj (d1 d2 : ℕ) (h1 : d1 < 10) (h2 : d2 < 10)
    (h : digit_char d1 = digit_char d2) : d1 = d2 := by
  interval_cases d1 <;> interval_cases d2 <;> first | rfl | exact absurd h (by decide)

/-- Digit characters are never an underscore. -/
theorem digit_char_ne_underscore (d : ℕ) (h : d < 10) : digit_char d ≠ '_' := by
  interval_cases d <;> decide

/-- Mapping `digit_char` over digit lists is injective. -/
theorem map_digit_char_inj :
    ∀ l1 l2 : List ℕ, (∀ d ∈ l1, d < 10) → (∀ d ∈ l2, d < 10) →
      l1.map digit_char = l2.map digit_char → l1 = l2 := by
  intro l1
  induction l1 with
  | nil =>
    intro l2 _ _ h
    cases l2 with
    | nil => rfl
    | cons d2 rest2 => simp at h
  | cons d rest ih =>
    intro l2 h1 h2 h
    cases l2 with
    | nil => simp at h
    | cons d2 rest2 =>
      simp only [List.map_cons, List.cons.injEq] at h
      have hd := digit_char_inj d d2 (h1 d (by simp)) (h2 d2 (by simp)) h.1
      rw [hd, ih rest2 (fun x hx => h1 x (by simp [hx])) (fun x hx => h2 x (by simp [hx])) h.2]

/-- Two strings with the same character data are equal. -/
theorem string_data_ext (s t : String) (h : s.data = t.data) : s = t :=
  congrArg String.mk h

/-- Decimal rendering is injective: the model of two different counter
values never prints the same way. -/
theorem nat_str_inj (m n : ℕ) (h : nat_str m = nat_str n) : m = n := by
  have hd : (nat_str m).data = (nat_str n).data := congrArg String.data h
  rw [nat_str_data, nat_str_data] at hd
  have hrev : (nat_rev_digits m).reverse = (nat_rev_digits n).reverse :=
    map_digit_char_inj _ _
      (fun d hd' => nat_rev_digits_lt m d (List.mem_reverse.mp hd'))
      (fun d hd' => nat_rev_digits_lt n d (List.mem_reverse.mp hd')) hd
  have hds : nat_rev_digits m = nat_rev_digits n := List.reverse_injective hrev
  calc m = rev_digits_val (nat_rev_digits m) := (nat_rev_digits_val m).symm
    _ = rev_digits_val (nat_rev_digits n) := by rw [hds]
    _ = n := nat_rev_digits_val n

/-- Rendered numbers contain no underscore character. -/
theorem nat_str_no_underscore (n : ℕ) : ∀ c ∈ (nat_str n).data, c ≠ '_' := by
  intro c hc
  rw [nat_str_data] at hc
  rcases List.mem_map.mp hc with ⟨d, hd, rfl⟩
  exact digit_char_ne_underscore d (nat_rev_digits_lt n d (List.mem_reverse.mp hd))

/-- Splitting at an underscore separator is unambiguous when neither
left part contains an underscore. -/
theorem append_underscore_inj :
    ∀ xs1 xs2 ys1 ys2 : List Char,
      (∀ c ∈ xs1, c ≠ '_') → (∀ c ∈ xs2, c ≠ '_') →
      xs1 ++ '_' :: ys1 = xs2 ++ '_' :: ys2 → xs1 = xs2 ∧ ys1 = ys2 := by
  intro xs1
  induction xs1 with
  | nil =>
    intro xs2 ys1 ys2 _ h2 h
    cases xs2 with
    | nil => simpa using h
    | cons b bs =>
      simp only [List.nil_append, List.cons_append, List.cons.injEq] at h
      exact absurd h.1.symm (h2 b (by simp))
  | cons a as ih =>
    intro xs2 ys1 ys2 h1 h2 h
    cases xs2 with
    | nil =>
      simp only [List.cons_append, List.nil_append, List.cons.injEq] at h
      exact absurd h.1 (h1 a (by simp))
    | cons b bs =>
      simp only [List.cons_append, List.cons.injEq] at h
      obtain ⟨hab, hrest⟩ := h
      obtain ⟨hxs, hys⟩ :=
        ih bs ys1 ys2 (fun c hc => h1 c (by simp [hc])) (fun c hc => h2 c (by simp [hc])) hrest
      exact ⟨by rw [hab, hxs], hys⟩

/-- Output names determine the running counter: two names built for the
same document base agree on the counter only if the counters agree, since
the counter digits sit after the last underscore and digits contain no
underscore. -/
theorem final_image_name_inj_counter (base : String) (p1 c1 p2 c2 : ℕ)
    (h : final_image_name base p1 c1 = final_image_name base p2 c2) : c1 = c2 := by
  have hd : base.data ++ ("_page_".data ++ ((nat_str (p1 + 1)).data ++
        ("_img_".data ++ ((nat_str (c1 + 1)).data ++ ".jpg".data)))) =
      base.data ++ ("_page_".data ++ ((nat_str (p2 + 1)).data ++
        ("_img_".data ++ ((nat_str (c2 + 1)).data ++ ".jpg".data)))) := by
    have h0 := congrArg String.data h
    simpa [final_image_name, String.data_append, List.append_assoc] using h0
  have h1 := List.append_cancel_left hd
  have h2 := List.append_cancel_left h1
  rw [show ("_img_".data : List Char) = '_' :: "img_".data from rfl] at h2
  simp only [List.cons_append] at h2
  obtain ⟨-, h3⟩ := append_underscore_inj _ _ _ _
    (nat_str_no_underscore (p1 + 1)) (nat_str_no_underscore (p2 + 1)) h2
  simp only [List.cons.injEq, List.nil_append, true_and] at h3
  have h5 := List.append_cancel_right h3
  have h6 : nat_str (c1 + 1) = nat_str (c2 + 1) := string_data_ext _ _ h5
  have h7 := nat_str_inj _ _ h6
  omega

/-- Shape of the `i`-th (0-based) blob uploaded for one document: its
recorded counter is exactly `i`, its path follows the naming scheme with
that counter, and its payload is JPEG at quality 85 with the matching
content type. -/
def OutputOk (image_dir base : String) (i : ℕ) (o : Output) : Prop :=
  o.image_count = i ∧
  o.blob_path = strip_slashes image_dir ++ "/" ++
    final_image_name base o.page_num o.image_count ∧
  o.payload.format = "JPEG" ∧
  o.payload.quality = 85 ∧
  o.content_type = "image/jpeg"

/-- Run invariant tying the document counter to the uploads: the counter
equals the number of uploads so far, and every upload has the
`OutputOk` shape for its position. -/
def DocInv (image_dir base : String) (d : DocState) : Prop :=
  d.image_count = d.written.length ∧
  ∀ (i : ℕ) (hi : i < d.written.length), OutputOk image_dir base i (d.written.get ⟨i, hi⟩)

/-- Appending one upload built from the current counter preserves the run
invariant. -/
theorem docinv_append (image_dir base : String) (d : DocState) (pn sk : ℕ) (img : PILImage)
    (h : DocInv image_dir base d) :
    DocInv image_dir base
      ⟨d.image_count + 1, sk,
        d.written ++ [⟨pn, d.image_count,
          strip_slashes image_dir ++ "/" ++ final_image_name base pn d.image_count,
          "image/jpeg", save_jpeg img⟩]⟩ := by
  obtain ⟨hc, hall⟩ := h
  constructor
  · simp [hc]
  · intro i hi
    simp only [List.length_append, List.length_singleton] at hi
    by_cases hlt : i < d.written.length
    · have hget : (d.written ++ [(⟨pn, d.image_count,
          strip_slashes image_dir ++ "/" ++ final_image_name base pn d.image_count,
          "image/jpeg", save_jpeg img⟩ : Output)]).get ⟨i, by simp; omega⟩ =
            d.written.get ⟨i, hlt⟩ := by
        simp [List.getElem_append_left, hlt]
      rw [hget]
      exact hall i hlt
    · have hieq : i = d.written.length := by omega
      subst hieq
      have hget : (d.written ++ [(⟨pn, d.image_count,
          strip_slashes image_dir ++ "/" ++ final_image_name base pn d.image_count,
          "image/jpeg", save_jpeg img⟩ : Output)]).get ⟨d.written.length, by simp⟩ =
            ⟨pn, d.image_count,
              strip_slashes image_dir ++ "/" ++ final_image_name base pn d.image_count,
              "image/jpeg", save_jpeg img⟩ := by
        simp
      rw [hget]
      exact ⟨hc, rfl, rfl, rfl, rfl⟩

/-- The extraction attempt preserves the run invariant: it either leaves
the state unchanged or appends a well-shaped upload and increments the
counter. -/
theorem attempt_extraction_inv (ctx : PageCtx) (e : ImgEntry) (doc : DocState)
    (h : DocInv ctx.image_dir ctx.base doc) :
    DocInv ctx.image_dir ctx.base (attempt_extraction ctx e doc) := by
  rcases e with ⟨x, ro, rs, eo, hd, ex, dc, di, so, uo⟩
  cases eo <;> cases hd <;> cases dc <;> cases so <;> cases uo <;> try exact h
  exact docinv_append ctx.image_dir ctx.base doc ctx.page_num doc.skipped_header_footer
    (normalize_pil di) h

/-- The per-image loop body preserves the run invariant. -/
theorem process_entry_inv (ctx : PageCtx) (st : PageState) (e : ImgEntry)
    (h : DocInv ctx.image_dir ctx.base st.doc) :
    DocInv ctx.image_dir ctx.base (process_entry ctx st e).doc := by
  simp only [process_entry]
  split
  · exact h
  · split
    · exact h
    · exact attempt_extraction_inv ctx e st.doc h

/-- The per-page image loop preserves the run invariant. -/
theorem process_entries_inv (ctx : PageCtx) :
    ∀ (l : List ImgEntry) (st : PageState), DocInv ctx.image_dir ctx.base st.doc →
      DocInv ctx.image_dir ctx.base (process_entries ctx st l).doc := by
  intro l
  induction l with
  | nil => intro st h; exact h
  | cons e rest ih => intro st h; exact ih _ (process_entry_inv ctx st e h)

/-- Page processing preserves the run invariant. -/
theorem process_page_inv (image_dir base : String) (hr fr : ℚ) (pn : ℕ) (p : PageData)
    (doc : DocState) (h : DocInv image_dir base doc) :
    DocInv image_dir base (process_page image_dir base hr fr pn p doc) := by
  simp only [process_page]
  split
  · exact h
  · split
    · exact h
    · exact process_entries_inv ⟨image_dir, base, pn, _, _⟩ p.image_list ⟨doc, []⟩ h

/-- The page loop preserves the run invariant. -/
theorem process_pages_inv (image_dir base : String) (hr fr : ℚ) :
    ∀ (pages : List PageData) (pn : ℕ) (doc : DocState), DocInv image_dir base doc →
      DocInv image_dir base (process_pages image_dir base hr fr pn doc pages).doc := by
  intro pages
  induction pages with
  | nil => intro pn doc h; exact h
  | cons p rest ih =>
    intro pn doc h
    simp only [process_pages]
    split
    · exact h
    · exact ih _ _ (process_page_inv image_dir base hr fr pn p doc h)

/-- Blobs uploaded over one whole document-processing run. -/
def run_written (pdf_gcs_name image_dir : String) (hr fr : ℚ) (pages : List PageData) :
    List Output :=
  (extract_images_from_pdf (OpenResult.ok pages) pdf_gcs_name image_dir hr fr).doc.written

/-- The run invariant holds at the end of every document run. -/
theorem run_inv (pdf_gcs_name image_dir : String) (hr fr : ℚ) (pages : List PageData) :
    DocInv image_dir (pdf_filename_base pdf_gcs_name)
      (extract_images_from_pdf (OpenResult.ok pages) pdf_gcs_name image_dir hr fr).doc := by
  have h0 : DocInv image_dir (pdf_filename_base pdf_gcs_name) ⟨0, 0, []⟩ :=
    ⟨rfl, fun i hi => absurd hi (by simp)⟩
  exact process_pages_inv image_dir (pdf_filename_base pdf_gcs_name)
    (validate_ratio_value hr) (validate_ratio_value fr) pages 0 ⟨0, 0, []⟩ h0

/-- Positional shape of each blob of a run, phrased over `run_written`. -/
theorem run_written_ok (pdf_gcs_name image_dir : String) (hr fr : ℚ) (pages : List PageData)
    (i : ℕ) (hi : i < (run_written pdf_gcs_name image_dir hr fr pages).length) :
    OutputOk image_dir (pdf_filename_base pdf_gcs_name) i
      ((run_written pdf_gcs_name image_dir hr fr pages).get ⟨i, hi⟩) :=
  (run_inv pdf_gcs_name image_dir hr fr pages).2 i hi

/-- C4: every blob written by a run is the JPEG re-encoding at quality 85,
uploaded with content type `image/jpeg` at exactly
`{outputDirectory}/{documentBase}_page_{N}_img_{M}.jpg` (page number and
counter 1-based inside `final_image_name`), so its extension is always
`.jpg` regardless of the source encoding. -/
theorem C4_jpeg_fixed_format (pdf_gcs_name image_dir : String) (hr fr : ℚ)
    (pages : List PageData) (o : Output)
    (ho : o ∈ run_written pdf_gcs_name image_dir hr fr pages) :
    o.payload.format = "JPEG" ∧ o.payload.quality = 85 ∧ o.content_type = "image/jpeg" ∧
    o.blob_path = strip_slashes image_dir ++ "/" ++
      final_image_name (pdf_filename_base pdf_gcs_name) o.page_num o.image_count ∧
    ends_with o.blob_path ".jpg" = true := by
  obtain ⟨⟨i, hi⟩, hget⟩ := List.mem_iff_get.mp ho
  have hok := run_written_ok pdf_gcs_name image_dir hr fr pages i hi
  rw [hget] at hok
  obtain ⟨hcount, hpath, hfmt, hq, hct⟩ := hok
  refine ⟨hfmt, hq, hct, hpath, ?_⟩
  rw [hpath]
  unfold ends_with
  rw [List.isSuffixOf_iff_suffix]
  have hsfx : ".jpg".data <:+
      (final_image_name (pdf_filename_base pdf_gcs_name) o.page_num o.image_count).data := by
    unfold final_image_name
    simp only [String.data_append]
    exact List.suffix_append _ _
  obtain ⟨w, hw⟩ := hsfx
  refine ⟨(strip_slashes image_dir ++ "/").data ++ w, ?_⟩
  simp only [String.data_append, ← hw, List.append_assoc]

/-- C3: within one document run the counter recorded for the `i`-th
written image is exactly `i` (so the number interpolated into its name is
`i + 1`: a 1-based, document-global counter incremented only on writes
and strictly monotonic over them), and distinct written images receive
distinct output paths. -/
theorem C3_running_counter (pdf_gcs_name image_dir : String) (hr fr : ℚ)
    (pages : List PageData) (i j : ℕ)
    (hi : i < (run_written pdf_gcs_name image_dir hr fr pages).length)
    (hj : j < (run_written pdf_gcs_name image_dir hr fr pages).length) :
    ((run_written pdf_gcs_name image_dir hr fr pages).get ⟨i, hi⟩).image_count = i ∧
    ((run_written pdf_gcs_name image_dir hr fr pages).get ⟨i, hi⟩).blob_path =
      strip_slashes image_dir ++ "/" ++
        final_image_name (pdf_filename_base pdf_gcs_name)
          ((run_written pdf_gcs_name image_dir hr fr pages).get ⟨i, hi⟩).page_num i ∧
    (i ≠ j →
      ((run_written pdf_gcs_name image_dir hr fr pages).get ⟨i, hi⟩).blob_path ≠
      ((run_written pdf_gcs_name image_dir hr fr pages).get ⟨j, hj⟩).blob_path) := by
  have hoki := run_written_ok pdf_gcs_name image_dir hr fr pages i hi
  have hokj := run_written_ok pdf_gcs_name image_dir hr fr pages j hj
  obtain ⟨hci, hpi, -, -, -⟩ := hoki
  obtain ⟨hcj, hpj, -, -, -⟩ := hokj
  refine ⟨hci, by rw [hpi, hci], ?_⟩
  intro hij heq
  rw [hpi, hpj] at heq
  have hd := congrArg String.data heq
  simp only [String.data_append, List.append_assoc] at hd
  have h1 := List.append_cancel_left hd
  have h2 := List.append_cancel_left h1
  have hname := string_data_ext _ _ h2
  have hcc := final_image_name_inj_counter _ _ _ _ _ hname
  rw [hci, hcj] at hcc
  exact hij hcc

/-- Concrete two-page document used by the run-level witnesses: page 1
has a header image (skipped) and a content image, page 2 has a content
image; all library calls succeed. -/
def witness_pages : List PageData :=
  [⟨true, 1000, true,
    [⟨3, true, [⟨0, 50⟩], true, true, some "png", true,
      ⟨Mode.RGBA, 2, 2, PixelSource.decoded 0⟩, true, true⟩,
     ⟨4, true, [⟨400, 600⟩], true, true, some "jpeg", true,
      ⟨Mode.RGB, 2, 2, PixelSource.decoded 1⟩, true, true⟩]⟩,
   ⟨true, 1000, true,
    [⟨5, true, [⟨100, 300⟩], true, true, some "png", true,
      ⟨Mode.P, 2, 2, PixelSource.decoded 2⟩, true, true⟩]⟩]

unseal Rat.mul Rat.add Rat.sub Rat.inv in
/-- Witness for C3: the two images written for `witness_pages` carry
counters 0 and 1 and distinct output paths. -/
theorem C3_running_counter_witness :
    ((run_written "report.pdf" "extracted-pdf-images" (1/10) (1/10) witness_pages).get
      ⟨0, by decide⟩).image_count = 0 ∧
    ((run_written "report.pdf" "extracted-pdf-images" (1/10) (1/10) witness_pages).get
      ⟨0, by decide⟩).blob_path ≠
    ((run_written "report.pdf" "extracted-pdf-images" (1/10) (1/10) witness_pages).get
      ⟨1, by decide⟩).blob_path :=
  ⟨(C3_running_counter "report.pdf" "extracted-pdf-images" (1/10) (1/10) witness_pages 0 1
      (by decide) (by decide)).1,
   (C3_running_counter "report.pdf" "extracted-pdf-images" (1/10) (1/10) witness_pages 0 1
      (by decide) (by decide)).2.2 (by decide)⟩

unseal Rat.mul Rat.add Rat.sub Rat.inv in
/-- Witness for C4: the first image written for `witness_pages` is JPEG
quality 85 with content type `image/jpeg` and a `.jpg` path following the
naming scheme. -/
theorem C4_jpeg_fixed_format_witness :
    ((run_written "report.pdf" "extracted-pdf-images" (1/10) (1/10) witness_pages).get
      ⟨0, by decide⟩).payload.format = "JPEG" ∧
    ((run_written "report.pdf" "extracted-pdf-images" (1/10) (1/10) witness_pages).get
      ⟨0, by decide⟩).payload.quality = 85 ∧
    ((run_written "report.pdf" "extracted-pdf-images" (1/10) (1/10) witness_pages).get
      ⟨0, by decide⟩).content_type = "image/jpeg" ∧
    ((run_written "report.pdf" "extracted-pdf-images" (1/10) (1/10) witness_pages).get
      ⟨0, by decide⟩).blob_path = strip_slashes "extracted-pdf-images" ++ "/" ++
      final_image_name (pdf_filename_base "report.pdf")
        ((run_written "report.pdf" "extracted-pdf-images" (1/10) (1/10) witness_pages).get
          ⟨0, by decide⟩).page_num
        ((run_written "report.pdf" "extracted-pdf-images" (1/10) (1/10) witness_pages).get
          ⟨0, by decide⟩).image_count ∧
    ends_with ((run_written "report.pdf" "extracted-pdf-images" (1/10) (1/10)
      witness_pages).get ⟨0, by decide⟩).blob_path ".jpg" = true :=
  C4_jpeg_fixed_format "report.pdf" "extracted-pdf-images" (1/10) (1/10) witness_pages
    ((run_written "report.pdf" "extracted-pdf-images" (1/10) (1/10) witness_pages).get
      ⟨0, by decide⟩)
    (List.get_mem _ _ _)

end ExtractImg
